import Mathlib

/-!
Shallow embedding of the `arr` crate (`src/lib.rs`, `src/zeroable.rs`): a
fixed-size heap-allocated array `Array<T>` with three constructors
(`zero`, `new`, `new_from_template`), raw-pointer scalar indexing with no
bounds check, slice-based range indexing (which does bounds check), and a
forward iterator.

Modelling decisions, each tied to the source:
* The allocated region of `size` elements is a `List (Option T)` — `none`
  models an uninitialized slot (as returned by `alloc`), `some v` a slot
  holding value `v` (`alloc_zeroed` for a `Zeroable` type yields slots
  holding the all-zero value).
* A memory access yields an `AccessResult`: `ok v` for a defined read,
  `boundsError` for the loud panic raised by Rust slice range indexing,
  and `undefined` for an access the source performs with no check at all
  (reading/writing past the allocation, or reading an uninitialized slot)
  — undefined behavior has no defined value, which is distinct from a
  deterministic bounds failure.
* `usize` indices and counts are `Nat`; machine-width overflow of
  `size * sizeof(T)` happens inside the allocator boundary, which the
  specification treats as an external collaborator, so it is not modelled.
* Rust `clone()` on a value is value copying, i.e. the identity in a
  functional model; `Default::default()` is the `Inhabited.default` of the
  element type.
-/

namespace Arr

/-- Outcome of a memory access in the model: a defined value, a
deterministic bounds panic (Rust slice indexing), or undefined behavior
(unchecked raw-pointer access outside the allocation, or a read of an
uninitialized slot). -/
inductive AccessResult (T : Type) where
  | ok : T → AccessResult T
  | boundsError : AccessResult T
  | undefined : AccessResult T
deriving DecidableEq

/-- Outcome of a range access: same three cases, for a view. -/
abbrev RangeResult (T : Type) := AccessResult (List (Option T))

/-- `Array<T>` from `src/lib.rs`: `size` is the element count field; the
raw region behind `ptr` is modelled by `data`, the list of the `size`
slots (`none` = uninitialized memory). `hsize` records that the region
allocated by every constructor holds exactly `size` slots. -/
structure Array (T : Type) where
  size : Nat
  data : List (Option T)
  hsize : data.length = size

/-- The `Zeroable` marker trait of `src/zeroable.rs`, enriched with the
value whose byte representation is all zero (what `alloc_zeroed` puts in
each slot): the Rust trait is a marker precisely because for these types
the all-zero bit pattern is a valid value. -/
class Zeroable (T : Type) where
  zeroVal : T

/-- Models the unsigned integer impls (`u8, u16, u32, u64, usize`). -/
instance : Zeroable Nat := ⟨0⟩

/-- Models the signed integer impls (`i8, i16, i32, i64, isize`). -/
instance : Zeroable Int := ⟨0⟩

/-- Models `impl<T, const N: usize> Zeroable for [T; N] where T: Zeroable`:
a fixed-size array is a function out of `Fin N`. -/
instance (n : Nat) (T : Type) [Zeroable T] : Zeroable (Fin n → T) :=
  ⟨fun _ => Zeroable.zeroVal⟩

/-- The fill loop shared (in shape) by `new` and `new_from_template`:
`for i in 0..size { *(ptr.wrapping_offset(i)) = v }`. `fill mem v n` is
the memory after the first `n` writes, so the writes happen in ascending
slot order starting from 0. -/
def fill (mem : List (Option T)) (v : T) : Nat → List (Option T)
  | 0 => mem
  | n + 1 => (fill mem v n).set n (some v)

/-- `Array::zero` (`T: Zeroable`): a single `alloc_zeroed` call; every one
of the `size` slots holds the all-zero value of `T`. -/
def Array.zero (T : Type) [Zeroable T] (size : Nat) : Array T :=
  ⟨size, List.replicate size (some (Zeroable.zeroVal : T)),
    List.length_replicate size _⟩

/-- `Array::new` (`T: Default + Copy`): `alloc` (uninitialized), compute
one default value, write it into slots `0, 1, …, size-1`. -/
def Array.new (T : Type) [Inhabited T] (size : Nat) : Array T :=
  ⟨size, fill (List.replicate size none) (default : T) size, by
    have h : ∀ (w : T) (m : List (Option T)) (k : Nat), (fill m w k).length = m.length := by
      intro w m k
      induction k with
      | zero => rfl
      | succ k ih => simp [fill, ih]
    rw [h]; exact List.length_replicate size _⟩

/-- `Array::new_from_template` (`T: Clone`): `alloc` (uninitialized), then
write an independent clone of `template` into slots `0, 1, …, size-1`
(cloning a value is the identity in the functional model). -/
def Array.new_from_template (size : Nat) (template : T) : Array T :=
  ⟨size, fill (List.replicate size none) template size, by
    have h : ∀ (w : T) (m : List (Option T)) (k : Nat), (fill m w k).length = m.length := by
      intro w m k
      induction k with
      | zero => rfl
      | succ k ih => simp [fill, ih]
    rw [h]; exact List.length_replicate size _⟩

/-- `Array::len`: returns the `size` field. -/
def Array.len (a : Array T) : Nat := a.size

/-- `Array::to_slice`: `slice::from_raw_parts(ptr, size)` — the whole
allocated region viewed as a slice. -/
def Array.to_slice (a : Array T) : List (Option T) := a.data

/-- `Array::to_slice_mut`: `slice::from_raw_parts_mut(ptr, size)` — the
same region, mutably borrowed. -/
def Array.to_slice_mut (a : Array T) : List (Option T) := a.data

/-- `Index<usize>::index`: `ptr.wrapping_offset(idx).as_ref().unwrap()` —
no bounds check of any kind. Inside the allocation an initialized slot
yields its value; reading an uninitialized slot or past the allocation is
undefined behavior. -/
def Array.index (a : Array T) (idx : Nat) : AccessResult T :=
  match a.data[idx]? with
  | some (some v) => AccessResult.ok v
  | some none => AccessResult.undefined
  | none => AccessResult.undefined

/-- `IndexMut<usize>::index_mut` followed by a store of `v` through the
returned reference: `ptr.wrapping_offset(idx).as_mut().unwrap()` — again
no bounds check, so a store past the allocation is undefined behavior,
while an in-bounds store replaces slot `idx`. -/
def Array.index_mut (a : Array T) (idx : Nat) (v : T) : AccessResult (Array T) :=
  if h : idx < a.data.length then
    AccessResult.ok ⟨a.size, a.data.set idx (some v), by
      rw [List.length_set]; exact a.hsize⟩
  else
    AccessResult.undefined

/-- `Index<Range<usize>>::index`: `&self.to_slice()[start..stop]`. Rust
slice range indexing panics (bounds error) unless
`start ≤ stop ∧ stop ≤ len`; otherwise it returns the subslice of slots
`[start, stop)`. -/
def Array.index_range (a : Array T) (start stop : Nat) : RangeResult T :=
  if start ≤ stop ∧ stop ≤ a.to_slice.length then
    AccessResult.ok ((a.to_slice.drop start).take (stop - start))
  else
    AccessResult.boundsError

/-- `IndexMut<Range<usize>>::index_mut`: `&mut self.to_slice_mut()[start..stop]`,
with the same bounds-checked semantics as the shared-borrow version. -/
def Array.index_mut_range (a : Array T) (start stop : Nat) : RangeResult T :=
  if start ≤ stop ∧ stop ≤ a.to_slice_mut.length then
    AccessResult.ok ((a.to_slice_mut.drop start).take (stop - start))
  else
    AccessResult.boundsError

/-- `ArrayIter<'a, T>`: a borrowed cursor over an array — the borrow
`arr` and the `iter` position field. -/
structure ArrayIter (T : Type) where
  arr : Array T
  iter : Nat

/-- `Array::iter`: a fresh cursor at position 0. -/
def Array.iter (a : Array T) : ArrayIter T := ⟨a, 0⟩

/-- `Iterator::next`: if `iter < arr.len()` then increment `iter` and
return `Some(&arr[iter - 1])` (the slot at the pre-increment position,
read through the unchecked scalar index); otherwise `None`. Returns the
yielded item together with the advanced cursor. -/
def ArrayIter.next (it : ArrayIter T) : Option (AccessResult T) × ArrayIter T :=
  if it.iter < it.arr.len then
    (some (it.arr.index (it.iter + 1 - 1)), ⟨it.arr, it.iter + 1⟩)
  else
    (none, it)

/-- Auxiliary driver with explicit fuel: calls `next` repeatedly,
collecting yielded items until `none`. Fuel bounds the number of calls;
`size - iter` fuel is always enough. -/
def ArrayIter.drainFuel : Nat → ArrayIter T → List (AccessResult T)
  | 0, _ => []
  | fuel + 1, it =>
    match it.next with
    | (some x, it2) => x :: drainFuel fuel it2
    | (none, _) => []

/-- The element sequence a `for` loop over the iterator observes: run
`next` to exhaustion from the cursor's current position. -/
def ArrayIter.drain (it : ArrayIter T) : List (AccessResult T) :=
  ArrayIter.drainFuel (it.arr.len - it.iter) it

/-- The template of the `test_template` test in `src/lib.rs`: a 256-element
fixed array holding 65 in every component. -/
def template65 : Fin 256 → Nat := fun _ => 65

/-! ### Basic access lemmas -/

theorem fill_length (mem : List (Option T)) (v : T) (n : Nat) :
    (fill mem v n).length = mem.length := by
  induction n with
  | zero => rfl
  | succ n ih => simp [fill, ih]

theorem fill_getElem? (mem : List (Option T)) (v : T) (n : Nat) :
    ∀ i, i < n → i < mem.length → (fill mem v n)[i]? = some (some v) := by
  induction n with
  | zero => intro i hi _; exact absurd hi (Nat.not_lt_zero i)
  | succ n ih =>
    intro i hi hm
    rcases Nat.lt_succ_iff_lt_or_eq.mp hi with h | h
    · rw [fill, List.getElem?_set_ne (Nat.ne_of_gt h)]
      exact ih i h hm
    · subst h
      rw [fill, List.getElem?_set_self (by rw [fill_length]; exact hm)]

theorem Array.to_slice_length (a : Array T) : a.to_slice.length = a.len := a.hsize

theorem Array.index_eq_ok_iff (a : Array T) (i : Nat) (v : T) :
    a.index i = AccessResult.ok v ↔ a.data[i]? = some (some v) := by
  unfold Array.index
  rcases h : a.data[i]? with _ | ⟨_ | w⟩ <;> simp [h]

theorem Array.index_oob (a : Array T) (i : Nat) (h : a.len ≤ i) :
    a.index i = AccessResult.undefined := by
  unfold Array.index
  have hnone : a.data[i]? = none := by
    rw [List.getElem?_eq_none_iff, a.hsize]
    exact h
  rw [hnone]

theorem Array.index_mut_oob (a : Array T) (i : Nat) (v : T) (h : a.len ≤ i) :
    a.index_mut i v = AccessResult.undefined := by
  rw [Array.index_mut, dif_neg]
  rw [a.hsize]
  exact Nat.not_lt.mpr h

theorem ArrayIter.next_lt (it : ArrayIter T) (h : it.iter < it.arr.len) :
    it.next = (some (it.arr.index it.iter), ⟨it.arr, it.iter + 1⟩) := by
  rw [ArrayIter.next, if_pos h, Nat.add_sub_cancel]

theorem ArrayIter.next_ge (it : ArrayIter T) (h : ¬ it.iter < it.arr.len) :
    it.next = (none, it) := by
  rw [ArrayIter.next, if_neg h]

theorem ArrayIter.drainFuel_spec (a : Array T) :
    ∀ n i, a.len - i = n →
      ArrayIter.drainFuel n ⟨a, i⟩ = (List.range' i n).map a.index := by
  intro n
  induction n with
  | zero => intro i _; rfl
  | succ n ih =>
    intro i h
    have hi : i < a.len := by omega
    have hnext := ArrayIter.next_lt ⟨a, i⟩ hi
    rw [ArrayIter.drainFuel, hnext]
    dsimp only
    rw [ih (i + 1) (by omega), List.range'_succ, List.map_cons]

theorem ArrayIter.drain_spec (a : Array T) :
    (a.iter).drain = (List.range a.len).map a.index := by
  rw [List.range_eq_range']
  exact ArrayIter.drainFuel_spec a (a.len - 0) 0 rfl

/-! ### Claims -/

/-- C3: for every `Zeroable` element type and every `count ≥ 0`,
immediately after `zero(count)` every one of the `count` slots reads as
the all-zero value of the element type. -/
theorem claim3_zero_fill (T : Type) [Zeroable T] (count i : Nat) (h : i < count) :
    (Array.zero T count).index i = AccessResult.ok (Zeroable.zeroVal : T) := by
  rw [Array.index_eq_ok_iff]
  show (List.replicate count (some (Zeroable.zeroVal : T)))[i]? = _
  rw [List.getElem?_replicate_of_lt h]

/-- C3 witness: `zero(5)` over an unsigned-integer element type — slot 3
reads as 0. -/
theorem claim3_zero_fill_witness :
    3 < 5 ∧ (Array.zero Nat 5).index 3 = AccessResult.ok 0 :=
  ⟨by decide, claim3_zero_fill Nat 5 3 (by decide)⟩

/-- C4: for every element type with a default value (and bitwise
copyability) and every `count ≥ 0`, immediately after `new(count)` every
slot `i < count` equals the element type's default value (the
construction computes one default and writes it into slots in ascending
index order — the shape of `fill`). -/
theorem claim4_default_fill (T : Type) [Inhabited T] (count i : Nat) (h : i < count) :
    (Array.new T count).index i = AccessResult.ok (default : T) := by
  rw [Array.index_eq_ok_iff]
  exact fill_getElem? (List.replicate count none) (default : T) count i h
    (by rw [List.length_replicate]; exact h)

/-- C4 witness: `new(4)` over `Nat` — slot 2 reads as the default 0. -/
theorem claim4_default_fill_witness :
    2 < 4 ∧ (Array.new Nat 4).index 2 = AccessResult.ok 0 :=
  ⟨by decide, claim4_default_fill Nat 4 2 (by decide)⟩

/-- C5: for every cloneable element type, every `count ≥ 0` and every
template value, immediately after `new_from_template(count, template)`
every slot `i < count` equals the template by value, and the slots are
independent: after mutating slot `i`, every slot `j ≠ i` is unchanged. -/
theorem claim5_template_fill (T : Type) (count : Nat) (t : T) (i : Nat) (h : i < count) :
    (Array.new_from_template count t).index i = AccessResult.ok t ∧
    (∀ (v : T) (a' : Array T),
      (Array.new_from_template count t).index_mut i v = AccessResult.ok a' →
      ∀ j, j ≠ i → a'.index j = (Array.new_from_template count t).index j) := by
  constructor
  · rw [Array.index_eq_ok_iff]
    exact fill_getElem? (List.replicate count none) t count i h
      (by rw [List.length_replicate]; exact h)
  · intro v a' hw j hj
    rw [Array.index_mut] at hw
    split at hw
    · cases hw
      simp only [Array.index, List.getElem?_set_ne (Ne.symm hj)]
    · exact (AccessResult.noConfusion hw)

/-- C5 witness: `new_from_template(4096, t)` where `t` is a 256-element
fixed array of 65 — element 255 of slot 4095 reads 65; and mutating slot
1 of `new_from_template(3, 7)` leaves slot 0 unchanged. -/
theorem claim5_template_fill_witness :
    4095 < 4096 ∧
    (Array.new_from_template 4096 template65).index 4095 = AccessResult.ok template65 ∧
    template65 255 = 65 ∧
    (Array.new_from_template 3 (7 : Nat)).index_mut 1 9 =
      AccessResult.ok (⟨3, [some 7, some 9, some 7], rfl⟩ : Array Nat) ∧
    (⟨3, [some 7, some 9, some 7], rfl⟩ : Array Nat).index 0 =
      (Array.new_from_template 3 (7 : Nat)).index 0 := by
  have hw : (Array.new_from_template 3 (7 : Nat)).index_mut 1 9 =
      AccessResult.ok (⟨3, [some 7, some 9, some 7], rfl⟩ : Array Nat) := by rfl
  refine ⟨by decide, (claim5_template_fill _ 4096 template65 4095 (by decide)).1, rfl,
    hw, ?_⟩
  exact (claim5_template_fill Nat 3 7 1 (by decide)).2 9 _ hw 0 (by decide)

/-- C6: for every buffer and every valid index `i < len`, writing `v` to
slot `i` through the mutable scalar index then reading slot `i` through
the scalar index returns that same `v`, and every other slot `j ≠ i`
reads the value it held before the write. -/
theorem claim6_write_read_roundtrip (T : Type) (a a' : Array T) (i : Nat) (v : T)
    (h : i < a.len) (hw : a.index_mut i v = AccessResult.ok a') :
    a'.index i = AccessResult.ok v ∧ ∀ j, j ≠ i → a'.index j = a.index j := by
  have hlen : i < a.data.length := by rw [a.hsize]; exact h
  rw [Array.index_mut, dif_pos hlen] at hw
  cases hw
  constructor
  · rw [Array.index_eq_ok_iff]
    exact List.getElem?_set_self hlen
  · intro j hj
    simp only [Array.index, List.getElem?_set_ne (Ne.symm hj)]

/-- C6 witness: on `zero(3)` over `Nat`, writing 9 at slot 2 then
reading slot 2 gives 9, and slot 1 is unchanged. -/
theorem claim6_write_read_roundtrip_witness :
    2 < (Array.zero Nat 3).len ∧
    (Array.zero Nat 3).index_mut 2 9 =
      AccessResult.ok (⟨3, [some 0, some 0, some 9], rfl⟩ : Array Nat) ∧
    (⟨3, [some 0, some 0, some 9], rfl⟩ : Array Nat).index 2 = AccessResult.ok 9 ∧
    (⟨3, [some 0, some 0, some 9], rfl⟩ : Array Nat).index 1 =
      (Array.zero Nat 3).index 1 := by
  have hw : (Array.zero Nat 3).index_mut 2 9 =
      AccessResult.ok (⟨3, [some 0, some 0, some 9], rfl⟩ : Array Nat) := by rfl
  have h := claim6_write_read_roundtrip Nat (Array.zero Nat 3) _ 2 9 (by decide) hw
  exact ⟨by decide, hw, h.1, h.2 1 (by decide)⟩

/-- C9: for every supported element type and every `count ≥ 0`, `len()`
of a buffer built by any of the three constructors equals `count`, and no
operation mutates the size: a scalar write returns a buffer of the same
length. -/
theorem claim9_len_immutable (T : Type) [Zeroable T] [Inhabited T] (count : Nat) (t : T) :
    (Array.zero T count).len = count ∧
    (Array.new T count).len = count ∧
    (Array.new_from_template count t).len = count ∧
    ∀ (a a' : Array T) (i : Nat) (v : T),
      a.index_mut i v = AccessResult.ok a' → a'.len = a.len := by
  refine ⟨rfl, rfl, rfl, ?_⟩
  intro a a' i v hw
  rw [Array.index_mut] at hw
  split at hw
  · cases hw; rfl
  · exact (AccessResult.noConfusion hw)

/-- C9 witness: the three constructors at `count = 6` over `Nat` all have
length 6, and a write into `zero(3)` preserves length 3. -/
theorem claim9_len_immutable_witness :
    (Array.zero Nat 6).len = 6 ∧
    (Array.new Nat 6).len = 6 ∧
    (Array.new_from_template 6 (5 : Nat)).len = 6 ∧
    (⟨3, [some 0, some 0, some 9], rfl⟩ : Array Nat).len = (Array.zero Nat 3).len := by
  have h := claim9_len_immutable Nat 6 (5 : Nat)
  exact ⟨h.1, h.2.1, h.2.2.1, h.2.2.2 (Array.zero Nat 3) _ 2 9 (by rfl)⟩

/-- C10: `to_slice` and `to_slice_mut` return a view of length exactly
`len()` over the same region, and slice access agrees with the scalar
index: the slice holds `v` at offset `k` exactly when the scalar read of
slot `k` returns `v`. -/
theorem claim10_slice_agrees_with_index (T : Type) (a : Array T) :
    a.to_slice.length = a.len ∧
    a.to_slice_mut = a.to_slice ∧
    ∀ (k : Nat) (v : T), a.to_slice[k]? = some (some v) ↔ a.index k = AccessResult.ok v := by
  refine ⟨a.hsize, rfl, ?_⟩
  intro k v
  exact (Array.index_eq_ok_iff a k v).symm

/-- C10 witness: on `zero(2)` over `Nat`, the slice has length 2, the
mutable slice is the same view, and slice offset 1 agreeing with the
scalar read gives `index 1 = ok 0`. -/
theorem claim10_slice_agrees_with_index_witness :
    (Array.zero Nat 2).to_slice.length = (Array.zero Nat 2).len ∧
    (Array.zero Nat 2).to_slice_mut = (Array.zero Nat 2).to_slice ∧
    (Array.zero Nat 2).index 1 = AccessResult.ok 0 := by
  have h := claim10_slice_agrees_with_index Nat (Array.zero Nat 2)
  exact ⟨h.1, h.2.1, (h.2.2 1 0).mp (by decide)⟩

/-- C1 counterexample: on the size-1 buffer `zero(1)` over `Nat` and the
out-of-range index `1 ≥ 1`, the scalar read does not fail with a bounds
error — the source performs an unchecked raw-pointer access, which the
model records as undefined behavior; likewise the scalar write. -/
theorem claim1_counterexample :
    (Array.zero Nat 1).index 1 ≠ AccessResult.boundsError ∧
    (Array.zero Nat 1).index 1 = AccessResult.undefined ∧
    (Array.zero Nat 1).index_mut 1 0 = AccessResult.undefined := by
  refine ⟨by decide, by decide, by rfl⟩

/-- C1 (amended): for every buffer of size `n` and every index `i ≥ n`,
the scalar read `index(i)` and the scalar write `index_mut(i)` perform no
bounds check at all: the access is undefined behavior (an undefined
access result in the model), not a BoundsError and not a value. -/
theorem claim1_scalar_oob_unchecked (T : Type) (a : Array T) (i : Nat) (v : T)
    (h : a.len ≤ i) :
    a.index i = AccessResult.undefined ∧ a.index_mut i v = AccessResult.undefined :=
  ⟨Array.index_oob a i h, Array.index_mut_oob a i v h⟩

/-- C1 (amended) witness: `zero(2)` over `Nat` at index 3. -/
theorem claim1_scalar_oob_unchecked_witness :
    (Array.zero Nat 2).len ≤ 3 ∧
    ((Array.zero Nat 2).index 3 = AccessResult.undefined ∧
      (Array.zero Nat 2).index_mut 3 7 = AccessResult.undefined) :=
  ⟨by decide, claim1_scalar_oob_unchecked Nat (Array.zero Nat 2) 3 7 (by decide)⟩

/-- C2: for every buffer and every range `start..stop`: if
`start ≤ stop ≤ len` then both the shared and the mutable range index
return the borrowed view over slots `[start, stop)` (a view of length
`stop - start`); otherwise (in particular `stop > len` or
`start > stop`) both fail with a bounds error rather than returning a
view. -/
theorem claim2_range_bounds_checked (T : Type) (a : Array T) (start stop : Nat) :
    (start ≤ stop ∧ stop ≤ a.len →
      a.index_range start stop =
        AccessResult.ok ((a.to_slice.drop start).take (stop - start)) ∧
      a.index_mut_range start stop = a.index_range start stop ∧
      ((a.to_slice.drop start).take (stop - start)).length = stop - start) ∧
    (¬(start ≤ stop ∧ stop ≤ a.len) →
      a.index_range start stop = AccessResult.boundsError ∧
      a.index_mut_range start stop = AccessResult.boundsError) := by
  have hlen : a.to_slice.length = a.len := a.hsize
  constructor
  · intro h
    have hcond : start ≤ stop ∧ stop ≤ a.to_slice.length := by rw [hlen]; exact h
    have hcond2 : start ≤ stop ∧ stop ≤ a.to_slice_mut.length := hcond
    refine ⟨by rw [Array.index_range, if_pos hcond], ?_, ?_⟩
    · rw [Array.index_range, Array.index_mut_range, if_pos hcond, if_pos hcond2]
      rfl
    · rw [List.length_take, List.length_drop, hlen]
      omega
  · intro h
    have hcond : ¬(start ≤ stop ∧ stop ≤ a.to_slice.length) := by rw [hlen]; exact h
    have hcond2 : ¬(start ≤ stop ∧ stop ≤ a.to_slice_mut.length) := hcond
    exact ⟨by rw [Array.index_range, if_neg hcond],
      by rw [Array.index_mut_range, if_neg hcond2]⟩

/-- C2 witness: on `zero(3)` over `Nat`, the range `1..2` is in bounds
and returns the one-slot view, while `1..5` (end past the size) fails
with a bounds error on both the shared and the mutable range index. -/
theorem claim2_range_bounds_checked_witness :
    ((Array.zero Nat 3).index_range 1 2 =
        AccessResult.ok (((Array.zero Nat 3).to_slice.drop 1).take (2 - 1)) ∧
      (Array.zero Nat 3).index_mut_range 1 2 = (Array.zero Nat 3).index_range 1 2 ∧
      (((Array.zero Nat 3).to_slice.drop 1).take (2 - 1)).length = 2 - 1) ∧
    (Array.zero Nat 3).index_range 1 5 = AccessResult.boundsError ∧
    (Array.zero Nat 3).index_mut_range 1 5 = AccessResult.boundsError :=
  ⟨(claim2_range_bounds_checked Nat (Array.zero Nat 3) 1 2).1 (by decide),
    (claim2_range_bounds_checked Nat (Array.zero Nat 3) 1 5).2 (by decide)⟩

/-- C7: a fresh cursor from `iter()` references the buffer at position 0;
`next()` at a position below the size yields the scalar read of the slot
at that position and advances the position by 1, and signals
end-of-sequence otherwise; consequently iterating a buffer of size `n`
from a fresh cursor yields exactly `n` elements, in ascending index
order, each the corresponding direct indexed read (`n = 0` yields no
elements). -/
theorem claim7_iteration_complete (T : Type) (a : Array T) :
    (a.iter).arr = a ∧
    (a.iter).iter = 0 ∧
    (∀ it : ArrayIter T, it.iter < it.arr.len →
      it.next = (some (it.arr.index it.iter), ⟨it.arr, it.iter + 1⟩)) ∧
    (∀ it : ArrayIter T, ¬it.iter < it.arr.len → it.next = (none, it)) ∧
    (a.iter).drain = (List.range a.len).map a.index ∧
    (a.iter).drain.length = a.len := by
    refine ⟨rfl, rfl, ArrayIter.next_lt, ArrayIter.next_ge, ArrayIter.drain_spec a, ?_⟩
    rw [ArrayIter.drain_spec a, List.length_map, List.length_range]

/-- C7 witness: on `zero(2)` over `Nat`, the fresh cursor starts at 0,
`next` at position 0 yields the slot-0 read and moves to position 1, an
exhausted cursor at position 2 signals end, and draining the fresh cursor
yields the two indexed reads in order; on `zero(0)` draining yields
nothing. -/
theorem claim7_iteration_complete_witness :
    ((Array.zero Nat 2).iter).iter = 0 ∧
    ((Array.zero Nat 2).iter).next =
      (some ((Array.zero Nat 2).index 0), ⟨Array.zero Nat 2, 1⟩) ∧
    (⟨Array.zero Nat 2, 2⟩ : ArrayIter Nat).next = (none, ⟨Array.zero Nat 2, 2⟩) ∧
    ((Array.zero Nat 2).iter).drain = (List.range (Array.zero Nat 2).len).map (Array.zero Nat 2).index ∧
    ((Array.zero Nat 0).iter).drain = [] := by
  have h := claim7_iteration_complete Nat (Array.zero Nat 2)
  have h0 := claim7_iteration_complete Nat (Array.zero Nat 0)
  exact ⟨h.2.1, h.2.2.1 _ (by decide), h.2.2.2.1 _ (by decide), h.2.2.2.2.1,
    h0.2.2.2.2.1⟩

/-- C8: for every buffer and every in-bounds range `start..stop`
(`start ≤ stop ≤ len`), the range view's element at local offset
`k < stop - start` equals the full buffer's element at index
`start + k`. -/
theorem claim8_range_view_offset (T : Type) (a : Array T) (start stop k : Nat)
    (h1 : start ≤ stop) (h2 : stop ≤ a.len) (hk : k < stop - start) :
    a.index_range start stop =
      AccessResult.ok ((a.to_slice.drop start).take (stop - start)) ∧
    ((a.to_slice.drop start).take (stop - start))[k]? = a.to_slice[start + k]? := by
  constructor
  · rw [Array.index_range, if_pos ⟨h1, by rw [Array.to_slice_length]; exact h2⟩]
  · rw [List.getElem?_take_of_lt hk, List.getElem?_drop]

/-- C8 witness: on `zero(4)` over `Nat`, the view `1..3` at local offset
1 equals the buffer element at index 2. -/
theorem claim8_range_view_offset_witness :
    1 ≤ 3 ∧ 3 ≤ (Array.zero Nat 4).len ∧ 1 < 3 - 1 ∧
    ((Array.zero Nat 4).index_range 1 3 =
        AccessResult.ok (((Array.zero Nat 4).to_slice.drop 1).take (3 - 1)) ∧
      (((Array.zero Nat 4).to_slice.drop 1).take (3 - 1))[1]? =
        (Array.zero Nat 4).to_slice[1 + 1]?) :=
  ⟨by decide, by decide, by decide,
    claim8_range_view_offset Nat (Array.zero Nat 4) 1 3 1 (by decide) (by decide) (by decide)⟩

end Arr
